import Mathlib

/-!
Verification development for a small tutorial REST repository.

The repository contains three variants of an in-memory CRUD service:

* `src/app.py` — a `TodoManager` over a list of `Todo` records, with a buggy
  `get_todo_by_id` (the `else: return None` sits inside the loop body, so the
  loop returns on its very first iteration).
* `src/bk_app.py` — the same manager with a correct linear `get_todo_by_id`.
* `src/todo_api/app.py` — an items API with a search endpoint and an
  `add_item` endpoint whose duplicate-name guard is inverted.

Python strings are modelled as `String`, `None`-able values as `Option`,
raised `ValueError` as `Except.error`, and object mutation as explicit state
passing: each mutating method takes a manager and returns the result paired
with the new manager state.
-/

/-- A Todo record, as built by `Todo.__init__` in `src/app.py` and
`src/bk_app.py` (identical in both files). -/
structure Todo where
  id : Nat
  title : String
  description : String
  completed : Bool
deriving DecidableEq, Repr

/-- The mutable state of `TodoManager` in `src/app.py` / `src/bk_app.py`:
the list of todos and the `next_id` counter. -/
structure TodoManager where
  todos : List Todo
  next_id : Nat
deriving DecidableEq, Repr

/-- A partial-update payload for a todo, modelling the JSON dictionary passed
to `Todo.update_from_dict`: each of the three recognised keys is either
present (`some`) or absent (`none`). -/
structure UpdateData where
  title : Option String
  description : Option String
  completed : Option Bool
deriving DecidableEq, Repr

/-- Embedding of `Todo.update_from_dict` (identical in `src/app.py` lines 23-26 and
`src/bk_app.py` lines 22-26): each recognised key that is present in the
payload overwrites the corresponding attribute; absent keys leave the
attribute alone, and `id` is never touched. -/
def Todo.update_from_dict (t : Todo) (data : UpdateData) : Todo :=
  let t := match data.title with
    | some v => { t with title := v }
    | none => t
  let t := match data.description with
    | some v => { t with description := v }
    | none => t
  match data.completed with
    | some v => { t with completed := v }
    | none => t

/-- Embedding of `TodoManager.delete_todo` (identical in `src/app.py` lines 63-66 and
`src/bk_app.py` lines 67-71): rebuild the list keeping every todo whose id
differs, and report whether the length shrank. -/
def TodoManager.delete_todo (m : TodoManager) (todo_id : Nat) : Bool × TodoManager :=
  let original_len := m.todos.length
  let todos := m.todos.filter fun todo => todo.id ≠ todo_id
  (decide (todos.length < original_len), { m with todos := todos })

/-- Replace the first element of the list whose id is `i` by `t'`, leaving the
rest alone. This models Python's in-place mutation of the object returned by
`get_todo_by_id` (the first — under the id-uniqueness invariant, the only —
list element with that id). -/
def setFirstById : List Todo → Nat → Todo → List Todo
  | [], _, _ => []
  | u :: rest, i, t' => if u.id = i then t' :: rest else u :: setFirstById rest i t'

namespace App

/-- Embedding of `TodoManager.add_todo` from `src/app.py` lines 36-42: an empty title or
description raises `ValueError` (modelled as `Except.error ()`, with the state
unchanged since the exception fires before any mutation); otherwise a new todo
gets id `next_id`, is appended, and `next_id` is incremented. -/
def add_todo (m : TodoManager) (title description : String) (completed : Bool) :
    Except Unit Todo × TodoManager :=
  if title = "" ∨ description = "" then
    (Except.error (), m)
  else
    let todo : Todo := ⟨m.next_id, title, description, completed⟩
    (Except.ok todo, { todos := m.todos ++ [todo], next_id := m.next_id + 1 })

/-- Embedding of `TodoManager.get_todo_by_id` from `src/app.py` lines 47-52. The source's
`for` loop carries an `else: return None` inside its body, so the function
returns on the first comparison: the head is returned if its id matches and
`None` is returned otherwise; an empty list falls through to Python's implicit
`None`. -/
def get_todo_by_id (m : TodoManager) (todo_id : Nat) : Option Todo :=
  match m.todos with
  | [] => none
  | todo :: _ => if todo.id = todo_id then some todo else none

/-- Embedding of `TodoManager.update_todo` from `src/app.py` lines 54-61: look the todo up
(with this file's buggy `get_todo_by_id`), return `None` if absent, return
`None` if the payload is empty, otherwise merge the payload into the found
todo (mutating it in place, modelled by `setFirstById`). -/
def update_todo (m : TodoManager) (todo_id : Nat) (new_data : UpdateData) :
    Option Todo × TodoManager :=
  match get_todo_by_id m todo_id with
  | none => (none, m)
  | some todo =>
    if new_data = ⟨none, none, none⟩ then
      (none, m)
    else
      let todo := todo.update_from_dict new_data
      (some todo, { m with todos := setFirstById m.todos todo_id todo })

/-- Embedding of `TodoManager.__init__` from `src/app.py` lines 29-34: empty list,
`next_id = 1`, then the two dummy records are added through `add_todo`. -/
def initManager : TodoManager :=
  let m : TodoManager := { todos := [], next_id := 1 }
  let m := (add_todo m "Learn Flask" "Understand the basics of Flask framework." false).2
  (add_todo m "Build API" "Create a RESTful API for a ToDo list." false).2

end App

namespace BkApp

/-- Embedding of `TodoManager.add_todo` from `src/bk_app.py` lines 37-43: an empty title or
description returns `None` with the state unchanged; otherwise a new todo gets
id `next_id`, is appended, and `next_id` is incremented. -/
def add_todo (m : TodoManager) (title description : String) (completed : Bool) :
    Option Todo × TodoManager :=
  if title = "" ∨ description = "" then
    (none, m)
  else
    let todo : Todo := ⟨m.next_id, title, description, completed⟩
    (some todo, { todos := m.todos ++ [todo], next_id := m.next_id + 1 })

/-- Embedding of `TodoManager.get_todo_by_id` from `src/bk_app.py` lines 48-52: scan the
whole list, return the first todo whose id matches, else `None`. -/
def get_todo_by_id (m : TodoManager) (todo_id : Nat) : Option Todo :=
  go m.todos todo_id
where
  /-- The loop of `get_todo_by_id`. -/
  go : List Todo → Nat → Option Todo
    | [], _ => none
    | todo :: rest, todo_id =>
      if todo.id = todo_id then some todo else go rest todo_id

/-- Embedding of `TodoManager.update_todo` from `src/bk_app.py` lines 54-65: look the todo
up with the correct linear `get_todo_by_id`, return `None` if absent, return
`None` if the payload is empty, otherwise merge the payload into the found
todo (mutating it in place, modelled by `setFirstById`). -/
def update_todo (m : TodoManager) (todo_id : Nat) (new_data : UpdateData) :
    Option Todo × TodoManager :=
  match get_todo_by_id m todo_id with
  | none => (none, m)
  | some todo =>
    if new_data = ⟨none, none, none⟩ then
      (none, m)
    else
      let todo := todo.update_from_dict new_data
      (some todo, { m with todos := setFirstById m.todos todo_id todo })

/-- Embedding of `TodoManager.__init__` from `src/bk_app.py` lines 30-35: empty list,
`next_id = 1`, then the two dummy records are added through `add_todo`. -/
def initManager : TodoManager :=
  let m : TodoManager := { todos := [], next_id := 1 }
  let m := (add_todo m "Learn Flask" "Understand the basics of Flask framework." false).2
  (add_todo m "Build API" "Create a RESTful API for a ToDo list." false).2

end BkApp

namespace TodoApi

/-- An item record from `src/todo_api/app.py`: dictionaries with keys `id`,
`name` and `description`. -/
structure Item where
  id : Nat
  name : String
  description : String
deriving DecidableEq, Repr

/-- The seeded `items` list from `src/todo_api/app.py` lines 5-8. -/
def items0 : List Item :=
  [⟨1, "Item A", "First item"⟩, ⟨2, "Item B", "Second item"⟩]

/-- Python's `str.lower()` on the characters these claims exercise: lower-case
each character (`Char.toLower` lower-cases ASCII letters, which is all the
repository's data contains). -/
def strLower (s : String) : String :=
  String.mk (s.toList.map Char.toLower)

/-- Whether `p` is a leading segment of `s` (character lists). -/
def listIsPre : List Char → List Char → Bool
  | [], _ => true
  | _ :: _, [] => false
  | c :: p, d :: s => c == d && listIsPre p s

/-- Python's substring test `p in s` on character lists: `p` occurs
contiguously somewhere in `s` (the empty `p` occurs in everything). -/
def listContains (p : List Char) : List Char → Bool
  | [] => listIsPre p []
  | d :: s => listIsPre p (d :: s) || listContains p s

/-- Python's substring test `p in s` on strings. -/
def strContains (p s : String) : Bool :=
  listContains p.toList s.toList

/-- Python truthiness of `request.args.get(...)`: `None` and the empty string
are falsy, every other string is truthy. -/
def optStrTruthy : Option String → Bool
  | none => false
  | some s => s ≠ ""

/-- Embedding of `search_items` from `src/todo_api/app.py` lines 31-45. Each query
parameter is `none` when absent from the query string. A parameter that is
truthy (present and non-empty) filters the running list down to the items
whose lower-cased field contains the lower-cased parameter; a falsy parameter
applies no filter. -/
def search_items (items : List Item) (name description : Option String) : List Item :=
  let target_name := name
  let target_description := description
  let filtered_items := items
  let filtered_items :=
    if optStrTruthy target_name then
      let lower_target_name := strLower (target_name.getD "")
      filtered_items.filter fun item => strContains lower_target_name (strLower item.name)
    else filtered_items
  let filtered_items :=
    if optStrTruthy target_description then
      let lower_target_description := strLower (target_description.getD "")
      filtered_items.filter fun item =>
        strContains lower_target_description (strLower item.description)
    else filtered_items
  filtered_items

/-- The JSON body of a POST `/items` request: each of the two recognised keys
is present (`some`) or absent (`none`). -/
structure ReqJson where
  name : Option String
  description : Option String
deriving DecidableEq, Repr

/-- Embedding of `add_item` from `src/todo_api/app.py` lines 47-72, as a function of the
module state `(items, next_id)` and the request body (`none` models a request
without a JSON body). Returns the HTTP status together with the new state.
A body missing `name` or `description` (which subsumes the source's falsy
`not request.json` check on an empty JSON object, also a 400) or carrying an
empty one is a 400. Otherwise `check_duplicate_name` is `not any(...)` — true
exactly when NO existing item has the requested name — and the request is
rejected with 409 when it is true, so only duplicate names reach the append. -/
def add_item (items : List Item) (next_id : Nat) (json : Option ReqJson) :
    Nat × List Item × Nat :=
  match json with
  | none => (400, items, next_id)
  | some j =>
    match j.name, j.description with
    | some name, some description =>
      if name = "" ∨ description = "" then
        (400, items, next_id)
      else
        let check_duplicate_name := !(items.any fun item => item.name == name)
        if check_duplicate_name then
          (409, items, next_id)
        else
          let new_item : Item := ⟨next_id, name, description⟩
          (201, items ++ [new_item], next_id + 1)
    | _, _ => (400, items, next_id)

end TodoApi

/-- One client-visible mutating operation on a `TodoManager`, as dispatched by
the HTTP routes of `src/app.py` / `src/bk_app.py`. -/
inductive Op where
  | add (title description : String) (completed : Bool)
  | update (id : Nat) (data : UpdateData)
  | delete (id : Nat)
deriving DecidableEq, Repr

/-- A manager state together with the ghost history of every id ever assigned
by a successful add (deleted records included), used to state the id-freshness
invariant. -/
structure Trace where
  m : TodoManager
  assigned : List Nat
deriving DecidableEq, Repr

namespace App

/-- Run one operation on an `src/app.py` manager, recording assigned ids. -/
def stepT (tr : Trace) : Op → Trace
  | .add t d c =>
    match add_todo tr.m t d c with
    | (Except.ok todo, m) => ⟨m, tr.assigned ++ [todo.id]⟩
    | (Except.error _, m) => ⟨m, tr.assigned⟩
  | .update i data => ⟨(update_todo tr.m i data).2, tr.assigned⟩
  | .delete i => ⟨(TodoManager.delete_todo tr.m i).2, tr.assigned⟩

/-- The state right after `TodoManager()` is constructed in `src/app.py`,
with the ghost history of the two dummy adds. -/
def initTrace : Trace :=
  stepT (stepT ⟨⟨[], 1⟩, []⟩
      (.add "Learn Flask" "Understand the basics of Flask framework." false))
    (.add "Build API" "Create a RESTful API for a ToDo list." false)

/-- Run a sequence of operations against a fresh `src/app.py` manager. -/
def runTrace (ops : List Op) : Trace :=
  ops.foldl stepT initTrace

end App

namespace BkApp

/-- Run one operation on an `src/bk_app.py` manager, recording assigned ids. -/
def stepT (tr : Trace) : Op → Trace
  | .add t d c =>
    match add_todo tr.m t d c with
    | (some todo, m) => ⟨m, tr.assigned ++ [todo.id]⟩
    | (none, m) => ⟨m, tr.assigned⟩
  | .update i data => ⟨(update_todo tr.m i data).2, tr.assigned⟩
  | .delete i => ⟨(TodoManager.delete_todo tr.m i).2, tr.assigned⟩

/-- The state right after `TodoManager()` is constructed in `src/bk_app.py`,
with the ghost history of the two dummy adds. -/
def initTrace : Trace :=
  stepT (stepT ⟨⟨[], 1⟩, []⟩
      (.add "Learn Flask" "Understand the basics of Flask framework." false))
    (.add "Build API" "Create a RESTful API for a ToDo list." false)

/-- Run a sequence of operations against a fresh `src/bk_app.py` manager. -/
def runTrace (ops : List Op) : Trace :=
  ops.foldl stepT initTrace

end BkApp

/-- The id-accounting invariant of a trace: `next_id` started at 1 and never
decreases below it, the ghost history of assigned ids is exactly the strictly
increasing run `1, 2, …, next_id - 1`, every live todo carries an assigned id,
and no two live todos share an id. -/
def TraceInv (tr : Trace) : Prop :=
  1 ≤ tr.m.next_id ∧
  tr.assigned = List.range' 1 (tr.m.next_id - 1) ∧
  (∀ i ∈ tr.m.todos.map fun t => t.id, i ∈ tr.assigned) ∧
  (tr.m.todos.map fun t => t.id).Nodup

theorem Todo.update_from_dict_id (t : Todo) (d : UpdateData) :
    (t.update_from_dict d).id = t.id := by
  obtain ⟨dt, dd, dc⟩ := d
  cases dt <;> cases dd <;> cases dc <;> simp [Todo.update_from_dict]

theorem map_id_setFirstById (l : List Todo) (i : Nat) (t' : Todo) (h : t'.id = i) :
    ((setFirstById l i t').map fun t => t.id) = l.map fun t => t.id := by
  induction l with
  | nil => rfl
  | cons hd tl ih =>
    unfold setFirstById
    by_cases hh : hd.id = i
    · simp [hh, h]
    · simp [hh, ih]

theorem app_get_some (m : TodoManager) (i : Nat) (t : Todo)
    (h : App.get_todo_by_id m i = some t) : t.id = i ∧ t ∈ m.todos := by
  obtain ⟨todos, nid⟩ := m
  cases todos with
  | nil => cases h
  | cons hd tl =>
    simp only [App.get_todo_by_id] at h
    by_cases hh : hd.id = i
    · rw [if_pos hh] at h
      injection h with h
      subst h
      exact ⟨hh, List.mem_cons_self _ _⟩
    · rw [if_neg hh] at h
      cases h

theorem BkApp.go_eq_find (l : List Todo) (i : Nat) :
    BkApp.get_todo_by_id.go l i = l.find? fun t => t.id == i := by
  induction l with
  | nil => rfl
  | cons hd tl ih =>
    unfold BkApp.get_todo_by_id.go
    by_cases hh : hd.id = i
    · rw [if_pos hh, List.find?_cons_of_pos _ (by simpa using hh)]
    · rw [if_neg hh, List.find?_cons_of_neg _ (by simpa using hh), ih]

theorem Bkapp_get_some (m : TodoManager) (i : Nat) (t : Todo)
    (h : BkApp.get_todo_by_id m i = some t) : t.id = i ∧ t ∈ m.todos := by
  unfold BkApp.get_todo_by_id at h
  rw [BkApp.go_eq_find] at h
  exact ⟨by simpa using List.find?_some h, List.mem_of_find?_eq_some h⟩

theorem app_update_todo_ids (m : TodoManager) (i : Nat) (d : UpdateData) :
    (((App.update_todo m i d).2.todos.map fun t => t.id) = m.todos.map fun t => t.id) ∧
    (App.update_todo m i d).2.next_id = m.next_id := by
  unfold App.update_todo
  cases hg : App.get_todo_by_id m i with
  | none => exact ⟨rfl, rfl⟩
  | some todo =>
    dsimp only
    by_cases hd : d = ⟨none, none, none⟩
    · rw [if_pos hd]
      exact ⟨rfl, rfl⟩
    · rw [if_neg hd]
      refine ⟨?_, rfl⟩
      exact map_id_setFirstById m.todos i _
        ((Todo.update_from_dict_id todo d).trans (app_get_some m i todo hg).1)

theorem Bkapp_update_todo_ids (m : TodoManager) (i : Nat) (d : UpdateData) :
    (((BkApp.update_todo m i d).2.todos.map fun t => t.id) = m.todos.map fun t => t.id) ∧
    (BkApp.update_todo m i d).2.next_id = m.next_id := by
  unfold BkApp.update_todo
  cases hg : BkApp.get_todo_by_id m i with
  | none => exact ⟨rfl, rfl⟩
  | some todo =>
    dsimp only
    by_cases hd : d = ⟨none, none, none⟩
    · rw [if_pos hd]
      exact ⟨rfl, rfl⟩
    · rw [if_neg hd]
      refine ⟨?_, rfl⟩
      exact map_id_setFirstById m.todos i _
        ((Todo.update_from_dict_id todo d).trans (Bkapp_get_some m i todo hg).1)

theorem TodoManager.delete_todo_todos (m : TodoManager) (i : Nat) :
    (TodoManager.delete_todo m i).2.todos = m.todos.filter fun t => t.id ≠ i := rfl

theorem TodoManager.delete_todo_next_id (m : TodoManager) (i : Nat) :
    (TodoManager.delete_todo m i).2.next_id = m.next_id := rfl

theorem TodoManager.delete_todo_fst (m : TodoManager) (i : Nat) :
    (TodoManager.delete_todo m i).1 =
      decide ((m.todos.filter fun t => t.id ≠ i).length < m.todos.length) := rfl

theorem app_add_todo_ok (m : TodoManager) (t d : String) (c : Bool) (todo : Todo)
    (m' : TodoManager) (h : App.add_todo m t d c = (Except.ok todo, m')) :
    todo = ⟨m.next_id, t, d, c⟩ ∧ m'.todos = m.todos ++ [todo] ∧
      m'.next_id = m.next_id + 1 := by
  unfold App.add_todo at h
  by_cases he : t = "" ∨ d = ""
  · rw [if_pos he] at h
    injection h with h1 h2
    cases h1
  · rw [if_neg he] at h
    injection h with h1 h2
    injection h1 with h1
    subst h1
    subst h2
    exact ⟨rfl, rfl, rfl⟩

theorem Bkapp_add_todo_ok (m : TodoManager) (t d : String) (c : Bool) (todo : Todo)
    (m' : TodoManager) (h : BkApp.add_todo m t d c = (some todo, m')) :
    todo = ⟨m.next_id, t, d, c⟩ ∧ m'.todos = m.todos ++ [todo] ∧
      m'.next_id = m.next_id + 1 := by
  unfold BkApp.add_todo at h
  by_cases he : t = "" ∨ d = ""
  · rw [if_pos he] at h
    injection h with h1 h2
    cases h1
  · rw [if_neg he] at h
    injection h with h1 h2
    injection h1 with h1
    subst h1
    subst h2
    exact ⟨rfl, rfl, rfl⟩

theorem nodup_append_fresh (l : List Nat) (x : Nat) (hnd : l.Nodup) (hx : x ∉ l) :
    (l ++ [x]).Nodup := by
  simp [List.nodup_append, hnd, hx]

theorem app_stepT_add (tr : Trace) (t d : String) (c : Bool) :
    App.stepT tr (.add t d c) =
      match App.add_todo tr.m t d c with
      | (Except.ok todo, m) => ⟨m, tr.assigned ++ [todo.id]⟩
      | (Except.error _, m) => ⟨m, tr.assigned⟩ := rfl

theorem app_stepT_update (tr : Trace) (i : Nat) (d : UpdateData) :
    App.stepT tr (.update i d) = ⟨(App.update_todo tr.m i d).2, tr.assigned⟩ := rfl

theorem app_stepT_delete (tr : Trace) (i : Nat) :
    App.stepT tr (.delete i) = ⟨(TodoManager.delete_todo tr.m i).2, tr.assigned⟩ := rfl

theorem Bkapp_stepT_add (tr : Trace) (t d : String) (c : Bool) :
    BkApp.stepT tr (.add t d c) =
      match BkApp.add_todo tr.m t d c with
      | (some todo, m) => ⟨m, tr.assigned ++ [todo.id]⟩
      | (none, m) => ⟨m, tr.assigned⟩ := rfl

theorem Bkapp_stepT_update (tr : Trace) (i : Nat) (d : UpdateData) :
    BkApp.stepT tr (.update i d) = ⟨(BkApp.update_todo tr.m i d).2, tr.assigned⟩ := rfl

theorem Bkapp_stepT_delete (tr : Trace) (i : Nat) :
    BkApp.stepT tr (.delete i) = ⟨(TodoManager.delete_todo tr.m i).2, tr.assigned⟩ := rfl

theorem TraceInv.add_ok_aux (tr : Trace) (h : TraceInv tr) (todo : Todo)
    (m' : TodoManager) (hid : todo.id = tr.m.next_id)
    (htodos : m'.todos = tr.m.todos ++ [todo]) (hnext : m'.next_id = tr.m.next_id + 1) :
    TraceInv ⟨m', tr.assigned ++ [todo.id]⟩ := by
  obtain ⟨h1, h2, h3, h4⟩ := h
  have hmem : ∀ a ∈ tr.assigned, a < tr.m.next_id := by
    intro a ha
    rw [h2, List.mem_range'_1] at ha
    omega
  refine ⟨?_, ?_, ?_, ?_⟩
  · show 1 ≤ m'.next_id
    omega
  · show tr.assigned ++ [todo.id] = List.range' 1 (m'.next_id - 1)
    have hr : m'.next_id - 1 = (tr.m.next_id - 1) + 1 := by omega
    rw [hr, List.range'_concat, h2, hid]
    congr 2
    omega
  · intro i hi
    show i ∈ tr.assigned ++ [todo.id]
    rw [htodos, List.map_append, List.mem_append] at hi
    rcases hi with hi | hi
    · exact List.mem_append_left _ (h3 i hi)
    · simp only [List.map_cons, List.map_nil, List.mem_singleton] at hi
      simp [hi]
  · show ((m'.todos.map fun t => t.id)).Nodup
    rw [htodos, List.map_append]
    have hfresh : todo.id ∉ tr.m.todos.map fun t => t.id := by
      intro hmem'
      have h5 := hmem _ (h3 _ hmem')
      omega
    simpa [List.map_cons, List.map_nil] using
      nodup_append_fresh _ todo.id h4 hfresh

theorem app_stepT_inv (tr : Trace) (op : Op) (h : TraceInv tr) :
    TraceInv (App.stepT tr op) := by
  cases op with
  | add t d c =>
    rw [app_stepT_add]
    cases ha : App.add_todo tr.m t d c with
    | mk r m' =>
      cases r with
      | error e =>
        have hm : m' = tr.m := by
          unfold App.add_todo at ha
          by_cases he : t = "" ∨ d = ""
          · rw [if_pos he] at ha
            injection ha with h1 h2
            exact h2.symm
          · rw [if_neg he] at ha
            injection ha with h1 h2
            cases h1
        dsimp only
        rw [hm]
        exact h
      | ok todo =>
        obtain ⟨hid, htodos, hnext⟩ := app_add_todo_ok tr.m t d c todo m' ha
        exact TraceInv.add_ok_aux tr h todo m' (by rw [hid]) htodos hnext
  | update i d =>
    obtain ⟨h1, h2, h3, h4⟩ := h
    obtain ⟨hids, hnext⟩ := app_update_todo_ids tr.m i d
    rw [app_stepT_update]
    exact ⟨by simpa [hnext] using h1, by simpa [hnext] using h2,
      by simpa [hids] using h3, by simpa [hids] using h4⟩
  | delete i =>
    obtain ⟨h1, h2, h3, h4⟩ := h
    have hsub : ((TodoManager.delete_todo tr.m i).2.todos.map fun t => t.id).Sublist
        (tr.m.todos.map fun t => t.id) := by
      rw [TodoManager.delete_todo_todos]
      exact (List.filter_sublist _).map _
    rw [app_stepT_delete]
    exact ⟨by simpa [TodoManager.delete_todo_next_id] using h1,
      by simpa [TodoManager.delete_todo_next_id, TodoManager.delete_todo_todos] using h2,
      fun j hj => h3 j (hsub.subset hj), h4.sublist hsub⟩

theorem Bkapp_stepT_inv (tr : Trace) (op : Op) (h : TraceInv tr) :
    TraceInv (BkApp.stepT tr op) := by
  cases op with
  | add t d c =>
    rw [Bkapp_stepT_add]
    cases ha : BkApp.add_todo tr.m t d c with
    | mk r m' =>
      cases r with
      | none =>
        have hm : m' = tr.m := by
          unfold BkApp.add_todo at ha
          by_cases he : t = "" ∨ d = ""
          · rw [if_pos he] at ha
            injection ha with h1 h2
            exact h2.symm
          · rw [if_neg he] at ha
            injection ha with h1 h2
            cases h1
        dsimp only
        rw [hm]
        exact h
      | some todo =>
        obtain ⟨hid, htodos, hnext⟩ := Bkapp_add_todo_ok tr.m t d c todo m' ha
        exact TraceInv.add_ok_aux tr h todo m' (by rw [hid]) htodos hnext
  | update i d =>
    obtain ⟨h1, h2, h3, h4⟩ := h
    obtain ⟨hids, hnext⟩ := Bkapp_update_todo_ids tr.m i d
    rw [Bkapp_stepT_update]
    exact ⟨by simpa [hnext] using h1, by simpa [hnext] using h2,
      by simpa [hids] using h3, by simpa [hids] using h4⟩
  | delete i =>
    obtain ⟨h1, h2, h3, h4⟩ := h
    have hsub : ((TodoManager.delete_todo tr.m i).2.todos.map fun t => t.id).Sublist
        (tr.m.todos.map fun t => t.id) := by
      rw [TodoManager.delete_todo_todos]
      exact (List.filter_sublist _).map _
    rw [Bkapp_stepT_delete]
    exact ⟨by simpa [TodoManager.delete_todo_next_id] using h1,
      by simpa [TodoManager.delete_todo_next_id, TodoManager.delete_todo_todos] using h2,
      fun j hj => h3 j (hsub.subset hj), h4.sublist hsub⟩

theorem app_initTrace_inv : TraceInv App.initTrace :=
  ⟨by decide, by decide, by decide, by decide⟩

theorem app_runTrace_inv (ops : List Op) : TraceInv (App.runTrace ops) := by
  have key : ∀ (l : List Op) (tr : Trace), TraceInv tr → TraceInv (l.foldl App.stepT tr) := by
    intro l
    induction l with
    | nil => exact fun tr h => h
    | cons op rest ih => exact fun tr h => ih _ (app_stepT_inv tr op h)
  exact key ops App.initTrace app_initTrace_inv

theorem Bkapp_initTrace_inv : TraceInv BkApp.initTrace :=
  ⟨by decide, by decide, by decide, by decide⟩

theorem Bkapp_runTrace_inv (ops : List Op) : TraceInv (BkApp.runTrace ops) := by
  have key : ∀ (l : List Op) (tr : Trace), TraceInv tr → TraceInv (l.foldl BkApp.stepT tr) := by
    intro l
    induction l with
    | nil => exact fun tr h => h
    | cons op rest ih => exact fun tr h => ih _ (Bkapp_stepT_inv tr op h)
  exact key ops BkApp.initTrace Bkapp_initTrace_inv

theorem app_get_none_of_all_ne (m : TodoManager) (i : Nat)
    (h : ∀ t ∈ m.todos, t.id ≠ i) : App.get_todo_by_id m i = none := by
  obtain ⟨todos, nid⟩ := m
  cases todos with
  | nil => rfl
  | cons hd tl =>
    simp only [App.get_todo_by_id]
    rw [if_neg (h hd (List.mem_cons_self _ _))]

theorem bk_get_none_of_all_ne (m : TodoManager) (i : Nat)
    (h : ∀ t ∈ m.todos, t.id ≠ i) : BkApp.get_todo_by_id m i = none := by
  rw [show BkApp.get_todo_by_id m i = _ from BkApp.go_eq_find m.todos i, List.find?_eq_none]
  intro t ht
  simpa using h t ht

theorem length_filter_ne_of_mem (l : List Todo) (i : Nat)
    (hnd : (l.map fun t => t.id).Nodup) (t0 : Todo) (ht0 : t0 ∈ l) (hid : t0.id = i) :
    (l.filter fun t => t.id ≠ i).length + 1 = l.length := by
  induction l with
  | nil => cases ht0
  | cons hd tl ih =>
    rw [List.map_cons, List.nodup_cons] at hnd
    by_cases hh : hd.id = i
    · have hne : ∀ t ∈ tl, t.id ≠ i := by
        intro t ht hti
        apply hnd.1
        have he : t.id = hd.id := by omega
        rw [← he]
        exact List.mem_map_of_mem _ ht
      rw [List.filter_cons_of_neg (by simp [hh]), List.filter_eq_self.2 (by
        intro t ht
        simpa using hne t ht)]
      simp
    · have ht0' : t0 ∈ tl := by
        rcases List.mem_cons.1 ht0 with h | h
        · exact absurd (h ▸ hid) hh
        · exact h
      rw [List.filter_cons_of_pos (by simpa using hh)]
      have := ih hnd.2 ht0'
      simp only [List.length_cons]
      omega

theorem TodoApi.listContains_nil (s : List Char) : TodoApi.listContains [] s = true := by
  cases s <;> rfl

theorem TodoApi.strContains_empty (s : String) : TodoApi.strContains "" s = true :=
  TodoApi.listContains_nil s.toList

theorem TodoApi.strLower_empty : TodoApi.strLower "" = "" := rfl

theorem TraceInv.add_consequences (tr : Trace) (h : TraceInv tr) (todo : Todo)
    (m' : TodoManager) (hid : todo.id = tr.m.next_id)
    (htodos : m'.todos = tr.m.todos ++ [todo]) :
    (∀ a ∈ tr.assigned, a < todo.id) ∧ ((m'.todos.map fun t => t.id)).Nodup := by
  obtain ⟨h1, h2, h3, h4⟩ := h
  constructor
  · intro a ha
    rw [h2, List.mem_range'_1] at ha
    omega
  · rw [htodos, List.map_append]
    have hfresh : todo.id ∉ tr.m.todos.map fun t => t.id := by
      intro hmem'
      have h5 := h3 _ hmem'
      rw [h2, List.mem_range'_1] at h5
      omega
    simpa using nodup_append_fresh _ todo.id h4 hfresh

/-- C1: in the `src/app.py` variant, `get_todo_by_id` inspects only the first
element and returns on the first comparison: for every manager state whose
todo list starts with a record whose id differs from the requested one, the
lookup returns `none` (not-found), even when a later record carries the
requested id. -/
theorem get_todo_by_id_first_comparison_only (m : TodoManager) (todo_id : Nat)
    (hd : Todo) (tl : List Todo) (hm : m.todos = hd :: tl) (hne : hd.id ≠ todo_id) :
    App.get_todo_by_id m todo_id = none := by
  obtain ⟨todos, nid⟩ := m
  simp only at hm
  subst hm
  simp only [App.get_todo_by_id]
  rw [if_neg hne]

/-- Witness for C1 on the seeded `src/app.py` manager: the record with id 2 is
live in the tail of the collection, yet `get_todo_by_id` returns `none`. -/
theorem get_todo_by_id_first_comparison_only_witness :
    (∃ t ∈ App.initManager.todos, t.id = 2) ∧
      App.get_todo_by_id App.initManager 2 = none := by
  refine ⟨by decide, ?_⟩
  exact get_todo_by_id_first_comparison_only App.initManager 2
    ⟨1, "Learn Flask", "Understand the basics of Flask framework.", false⟩
    [⟨2, "Build API", "Create a RESTful API for a ToDo list.", false⟩]
    (by decide) (by decide)

/-- C2 (counterexample): the claim says the empty-payload rejection is an
error kind distinct from the NotFound result. On the seeded state, id 1 is
live and id 999 is unknown, yet `update_todo` yields the very same `none`
result for the empty payload on id 1 as for the unknown id 999, in both
variants: no distinct `ValidationError` result exists at the store level. -/
theorem update_todo_empty_vs_notfound_counterexample :
    (∃ t ∈ App.initManager.todos, t.id = 1) ∧
    (∀ t ∈ App.initManager.todos, t.id ≠ 999) ∧
    (App.update_todo App.initManager 1 ⟨none, none, none⟩).1 = none ∧
    (App.update_todo App.initManager 999 ⟨none, none, none⟩).1 = none ∧
    (BkApp.update_todo BkApp.initManager 1 ⟨none, none, none⟩).1 = none ∧
    (BkApp.update_todo BkApp.initManager 999 ⟨none, none, none⟩).1 = none := by
  refine ⟨by decide, by decide, by decide, by decide, by decide, by decide⟩

/-- C2 (amended): for every store state and every id, `update_todo` with an
empty partial payload is rejected — it returns `None` and leaves the state
unchanged — but the failure is the same `None` result that signals NotFound
for an unknown id, not a distinct `ValidationError`, in both variants. -/
theorem update_todo_empty_payload_rejected (m : TodoManager) (todo_id : Nat) :
    App.update_todo m todo_id ⟨none, none, none⟩ = (none, m) ∧
    BkApp.update_todo m todo_id ⟨none, none, none⟩ = (none, m) := by
  constructor
  · unfold App.update_todo
    cases App.get_todo_by_id m todo_id with
    | none => rfl
    | some todo =>
      dsimp only
      rw [if_pos rfl]
  · unfold BkApp.update_todo
    cases BkApp.get_todo_by_id m todo_id with
    | none => rfl
    | some todo =>
      dsimp only
      rw [if_pos rfl]

/-- C3: in both variants, `add_todo` with an empty title or an empty
description fails (a raised `ValueError` in `src/app.py`, a `None` result in
`src/bk_app.py` — both surfaced by the adapter as the 400 `ValidationError`)
and leaves the collection unchanged. -/
theorem add_todo_empty_field_rejected (mA mB : TodoManager) (title description : String)
    (completed : Bool) (h : title = "" ∨ description = "") :
    App.add_todo mA title description completed = (Except.error (), mA) ∧
    BkApp.add_todo mB title description completed = (none, mB) := by
  constructor
  · unfold App.add_todo
    rw [if_pos h]
  · unfold BkApp.add_todo
    rw [if_pos h]

/-- Witness for C3: the calls `add("", "x")` and `add("x", "")` both fail with the
validation failure and leave the seeded managers unchanged. -/
theorem add_todo_empty_field_rejected_witness :
    App.add_todo App.initManager "" "x" false = (Except.error (), App.initManager) ∧
    App.add_todo App.initManager "x" "" false = (Except.error (), App.initManager) ∧
    BkApp.add_todo BkApp.initManager "" "x" false = (none, BkApp.initManager) ∧
    BkApp.add_todo BkApp.initManager "x" "" false = (none, BkApp.initManager) := by
  refine ⟨?_, ?_, ?_, ?_⟩
  · exact (add_todo_empty_field_rejected App.initManager BkApp.initManager "" "x" false
      (Or.inl rfl)).1
  · exact (add_todo_empty_field_rejected App.initManager BkApp.initManager "x" "" false
      (Or.inr rfl)).1
  · exact (add_todo_empty_field_rejected App.initManager BkApp.initManager "" "x" false
      (Or.inl rfl)).2
  · exact (add_todo_empty_field_rejected App.initManager BkApp.initManager "x" "" false
      (Or.inr rfl)).2

/-- C5: the merge `update_from_dict` overwrites exactly the keys present in a non-empty
partial payload among title, description and completed, leaves every absent
key's field unchanged, and never touches the immutable id. -/
theorem update_from_dict_merge_semantics (t : Todo) (d : UpdateData)
    (h : d ≠ ⟨none, none, none⟩) :
    (t.update_from_dict d).id = t.id ∧
    (d.title = none → (t.update_from_dict d).title = t.title) ∧
    (∀ v, d.title = some v → (t.update_from_dict d).title = v) ∧
    (d.description = none → (t.update_from_dict d).description = t.description) ∧
    (∀ v, d.description = some v → (t.update_from_dict d).description = v) ∧
    (d.completed = none → (t.update_from_dict d).completed = t.completed) ∧
    (∀ v, d.completed = some v → (t.update_from_dict d).completed = v) := by
  obtain ⟨dt, dd, dc⟩ := d
  cases dt <;> cases dd <;> cases dc <;> simp [Todo.update_from_dict]

/-- Witness for C5: updating a concrete record with the payload
`{"completed": true}` changes only `completed`, leaving id, title and
description intact. -/
theorem update_from_dict_merge_semantics_witness :
    (Todo.update_from_dict ⟨7, "T", "D", false⟩ ⟨none, none, some true⟩).id = 7 ∧
    (Todo.update_from_dict ⟨7, "T", "D", false⟩ ⟨none, none, some true⟩).title = "T" ∧
    (Todo.update_from_dict ⟨7, "T", "D", false⟩ ⟨none, none, some true⟩).description = "D" ∧
    (Todo.update_from_dict ⟨7, "T", "D", false⟩ ⟨none, none, some true⟩).completed = true := by
  have h := update_from_dict_merge_semantics ⟨7, "T", "D", false⟩ ⟨none, none, some true⟩
    (by decide)
  exact ⟨h.1, h.2.1 rfl, h.2.2.2.1 rfl, h.2.2.2.2.2.2 true rfl⟩

/-- C4: in the `src/bk_app.py` variant, `get_todo_by_id` is a genuine linear
scan: it equals the first-match search over the whole list, it returns
not-found exactly when no record carries the requested id, and any record it
returns is a member of the collection with the requested id. -/
theorem bk_get_todo_by_id_linear_scan (m : TodoManager) (todo_id : Nat) :
    BkApp.get_todo_by_id m todo_id = (m.todos.find? fun t => t.id == todo_id) ∧
    (BkApp.get_todo_by_id m todo_id = none ↔ ∀ t ∈ m.todos, t.id ≠ todo_id) ∧
    (∀ t, BkApp.get_todo_by_id m todo_id = some t → t ∈ m.todos ∧ t.id = todo_id) := by
  refine ⟨BkApp.go_eq_find m.todos todo_id, ?_, ?_⟩
  · rw [show BkApp.get_todo_by_id m todo_id = _ from BkApp.go_eq_find m.todos todo_id,
      List.find?_eq_none]
    simp
  · intro t ht
    obtain ⟨h1, h2⟩ := Bkapp_get_some m todo_id t ht
    exact ⟨h2, h1⟩

/-- Witness for C4 on the seeded `src/bk_app.py` manager: the lookup for id 2
scans past the first record and returns the second, which is a member of the
collection. -/
theorem bk_get_todo_by_id_linear_scan_witness :
    BkApp.get_todo_by_id BkApp.initManager 2 =
      some ⟨2, "Build API", "Create a RESTful API for a ToDo list.", false⟩ ∧
    (⟨2, "Build API", "Create a RESTful API for a ToDo list.", false⟩ : Todo) ∈
      BkApp.initManager.todos := by
  refine ⟨by decide, ?_⟩
  exact ((bk_get_todo_by_id_linear_scan BkApp.initManager 2).2.2 _ (by decide)).1

/-- C7: for every manager whose live ids are distinct (the invariant
established for reachable states), `delete_todo id` returns `true` exactly
when some record with that id is in the collection; on success the collection
shrinks by exactly one; after the call a lookup of that id returns not-found
in both variants; and on failure the state is unchanged. -/
theorem delete_todo_spec (m : TodoManager) (todo_id : Nat)
    (hnd : (m.todos.map fun t => t.id).Nodup) :
    ((TodoManager.delete_todo m todo_id).1 = true ↔ ∃ t ∈ m.todos, t.id = todo_id) ∧
    ((TodoManager.delete_todo m todo_id).1 = true →
      (TodoManager.delete_todo m todo_id).2.todos.length + 1 = m.todos.length) ∧
    App.get_todo_by_id (TodoManager.delete_todo m todo_id).2 todo_id = none ∧
    BkApp.get_todo_by_id (TodoManager.delete_todo m todo_id).2 todo_id = none ∧
    ((TodoManager.delete_todo m todo_id).1 = false →
      (TodoManager.delete_todo m todo_id).2 = m) := by
  have hall : ∀ t ∈ (TodoManager.delete_todo m todo_id).2.todos, t.id ≠ todo_id := by
    rw [TodoManager.delete_todo_todos]
    intro t ht
    simpa using (List.mem_filter.1 ht).2
  have hiff : (TodoManager.delete_todo m todo_id).1 = true ↔
      ∃ t ∈ m.todos, t.id = todo_id := by
    rw [TodoManager.delete_todo_fst, decide_eq_true_eq,
      List.length_filter_lt_length_iff_exists]
    simp
  refine ⟨hiff, ?_, app_get_none_of_all_ne _ _ hall, bk_get_none_of_all_ne _ _ hall, ?_⟩
  · intro htrue
    obtain ⟨t0, ht0, hid⟩ := hiff.1 htrue
    rw [TodoManager.delete_todo_todos]
    exact length_filter_ne_of_mem m.todos todo_id hnd t0 ht0 hid
  · intro hfalse
    have hnlt : ¬ (m.todos.filter fun t => t.id ≠ todo_id).length < m.todos.length := by
      rw [TodoManager.delete_todo_fst, decide_eq_false_iff_not] at hfalse
      exact hfalse
    have hlen : (m.todos.filter fun t => t.id ≠ todo_id).length = m.todos.length := by
      have := (m.todos.filter_sublist (p := fun t => t.id ≠ todo_id)).length_le
      omega
    have heq : m.todos.filter (fun t => t.id ≠ todo_id) = m.todos :=
      (m.todos.filter_sublist).eq_of_length hlen
    obtain ⟨todos, nid⟩ := m
    simp only [TodoManager.delete_todo]
    simp only at heq
    rw [heq]

/-- Witness for C7: deleting id 1 from the seeded manager succeeds, the
collection shrinks from two records to one, and a subsequent lookup of id 1
returns not-found. -/
theorem delete_todo_spec_witness :
    (TodoManager.delete_todo App.initManager 1).1 = true ∧
    (TodoManager.delete_todo App.initManager 1).2.todos.length + 1 =
      App.initManager.todos.length ∧
    BkApp.get_todo_by_id (TodoManager.delete_todo App.initManager 1).2 1 = none := by
  have h := delete_todo_spec App.initManager 1 (by decide)
  have ht : (TodoManager.delete_todo App.initManager 1).1 = true :=
    h.1.2 ⟨⟨1, "Learn Flask", "Understand the basics of Flask framework.", false⟩,
      by decide, rfl⟩
  exact ⟨ht, h.2.1 ht, h.2.2.2.1⟩

/-- C6: for every sequence of operations run against a fresh manager of
either variant, the ghost history of assigned ids is exactly the strictly
increasing run starting at 1 (so ids are assigned in strictly increasing
order from 1 and never reused), no two live records share an id, and each
successful `add_todo` yields a record whose id is strictly greater than every
previously assigned id — including ids of records deleted since — while
keeping the live ids distinct. -/
theorem ids_strictly_increasing_never_reused (ops : List Op) :
    (App.runTrace ops).assigned =
      List.range' 1 ((App.runTrace ops).m.next_id - 1) ∧
    ((App.runTrace ops).m.todos.map fun t => t.id).Nodup ∧
    (BkApp.runTrace ops).assigned =
      List.range' 1 ((BkApp.runTrace ops).m.next_id - 1) ∧
    ((BkApp.runTrace ops).m.todos.map fun t => t.id).Nodup ∧
    (∀ t d c todo m',
      App.add_todo (App.runTrace ops).m t d c = (Except.ok todo, m') →
        (∀ a ∈ (App.runTrace ops).assigned, a < todo.id) ∧
        ((m'.todos.map fun t => t.id)).Nodup) ∧
    (∀ t d c todo m',
      BkApp.add_todo (BkApp.runTrace ops).m t d c = (some todo, m') →
        (∀ a ∈ (BkApp.runTrace ops).assigned, a < todo.id) ∧
        ((m'.todos.map fun t => t.id)).Nodup) := by
  have hA := app_runTrace_inv ops
  have hB := Bkapp_runTrace_inv ops
  refine ⟨hA.2.1, hA.2.2.2, hB.2.1, hB.2.2.2, ?_, ?_⟩
  · intro t d c todo m' hadd
    obtain ⟨hid, htodos, _⟩ := app_add_todo_ok _ t d c todo m' hadd
    exact TraceInv.add_consequences _ hA todo m' (by rw [hid]) htodos
  · intro t d c todo m' hadd
    obtain ⟨hid, htodos, _⟩ := Bkapp_add_todo_ok _ t d c todo m' hadd
    exact TraceInv.add_consequences _ hB todo m' (by rw [hid]) htodos

/-- Witness for C6 at the empty operation sequence: the seeded managers have
assigned ids `[1, 2]`, distinct live ids, and a concrete successful add is
assigned the fresh id 3, strictly above both. -/
theorem ids_strictly_increasing_never_reused_witness :
    (App.runTrace []).assigned = [1, 2] ∧
    ((App.runTrace []).m.todos.map fun t => t.id).Nodup ∧
    (∀ a ∈ (App.runTrace []).assigned, a < 3) ∧
    (∀ a ∈ (BkApp.runTrace []).assigned, a < 3) := by
  have h := ids_strictly_increasing_never_reused []
  have hA := h.2.2.2.2.1 "x" "y" false ⟨3, "x", "y", false⟩
    ⟨(App.runTrace []).m.todos ++ [⟨3, "x", "y", false⟩], 4⟩ (by rfl)
  have hB := h.2.2.2.2.2 "x" "y" false ⟨3, "x", "y", false⟩
    ⟨(BkApp.runTrace []).m.todos ++ [⟨3, "x", "y", false⟩], 4⟩ (by rfl)
  exact ⟨by decide, h.2.1, hA.1, hB.1⟩

/-- C8: the endpoint `search_items` is a case-insensitive substring filter. With both
parameters given, a record is kept exactly when its lower-cased name contains
the lower-cased name filter and its lower-cased description contains the
lower-cased description filter (logical AND); with neither given every record
is returned; every result is a sublist of the collection, so insertion order
is preserved; and on the seeded items, searching for "item a" returns only
"Item A" despite the case difference. -/
theorem search_items_case_insensitive_and (items : List TodoApi.Item) (tn td : String) :
    (TodoApi.search_items items (some tn) (some td) =
      items.filter fun it =>
        TodoApi.strContains (TodoApi.strLower tn) (TodoApi.strLower it.name) &&
        TodoApi.strContains (TodoApi.strLower td) (TodoApi.strLower it.description)) ∧
    TodoApi.search_items items none none = items ∧
    (∀ n d, (TodoApi.search_items items n d).Sublist items) ∧
    TodoApi.search_items TodoApi.items0 (some "item a") none =
      [⟨1, "Item A", "First item"⟩] := by
  refine ⟨?_, rfl, ?_, by decide⟩
  · by_cases htn : tn = ""
    · subst htn
      by_cases htd : td = ""
      · subst htd
        simp [TodoApi.search_items, TodoApi.optStrTruthy, TodoApi.strContains_empty,
          TodoApi.strLower_empty]
      · simp [TodoApi.search_items, TodoApi.optStrTruthy, htd, TodoApi.strContains_empty,
          TodoApi.strLower_empty]
    · by_cases htd : td = ""
      · subst htd
        simp [TodoApi.search_items, TodoApi.optStrTruthy, htn, TodoApi.strContains_empty,
          TodoApi.strLower_empty]
      · simp only [TodoApi.search_items, TodoApi.optStrTruthy, htn, htd, Option.getD_some,
          ne_eq, not_false_eq_true, decide_True, if_true]
        rw [List.filter_filter]
        exact List.filter_congr fun a _ => by rw [Bool.and_comm]
  · intro n d
    unfold TodoApi.search_items
    by_cases h1 : TodoApi.optStrTruthy n <;> by_cases h2 : TodoApi.optStrTruthy d <;>
      simp only [h1, h2, if_true, if_false, Bool.false_eq_true]
    · exact (List.filter_sublist _).trans (List.filter_sublist _)
    · exact List.filter_sublist _
    · exact List.filter_sublist _
    · exact List.Sublist.refl _

/-- C10: in `src/todo_api/app.py`, an empty-string query value is falsy and
therefore applies no filter, exactly like an absent parameter: searching with
`name=""` (or `description=""`) equals searching without that parameter, and
searching with both parameters empty returns the whole collection. -/
theorem search_items_empty_param_no_filter (items : List TodoApi.Item)
    (n d : Option String) :
    TodoApi.search_items items (some "") d = TodoApi.search_items items none d ∧
    TodoApi.search_items items n (some "") = TodoApi.search_items items n none ∧
    TodoApi.search_items items (some "") (some "") = items := by
  refine ⟨?_, ?_, ?_⟩ <;> simp [TodoApi.search_items, TodoApi.optStrTruthy]

/-- C9: in `src/todo_api/app.py`, the duplicate-name guard of `add_item` is
inverted: a well-formed request whose name matches no existing item is
rejected with 409 and leaves the state unchanged, while a 201 success implies
the name already belonged to some existing item (and only then is the new
item appended and `next_id` bumped). -/
theorem add_item_guard_inverted (items : List TodoApi.Item) (next_id : Nat)
    (name description : String) (hn : name ≠ "") (hd : description ≠ "") :
    ((∀ it ∈ items, it.name ≠ name) →
      TodoApi.add_item items next_id (some ⟨some name, some description⟩) =
        (409, items, next_id)) ∧
    ((TodoApi.add_item items next_id (some ⟨some name, some description⟩)).1 = 201 →
      (∃ it ∈ items, it.name = name) ∧
      TodoApi.add_item items next_id (some ⟨some name, some description⟩) =
        (201, items ++ [⟨next_id, name, description⟩], next_id + 1)) := by
  have hne : ¬(name = "" ∨ description = "") := by
    rintro (h | h)
    exacts [hn h, hd h]
  by_cases hdup : (items.any fun item => item.name == name) = true
  · constructor
    · intro hnone
      obtain ⟨it, hit, hname⟩ := List.any_eq_true.1 hdup
      exact absurd (by simpa using hname) (hnone it hit)
    · intro _
      refine ⟨?_, ?_⟩
      · obtain ⟨it, hit, hname⟩ := List.any_eq_true.1 hdup
        exact ⟨it, hit, by simpa using hname⟩
      · simp only [TodoApi.add_item]
        rw [if_neg hne]
        simp [hdup]
  · constructor
    · intro _
      simp only [TodoApi.add_item]
      rw [if_neg hne]
      simp [hdup]
    · intro h201
      exfalso
      simp only [TodoApi.add_item] at h201
      rw [if_neg hne] at h201
      simp [hdup] at h201

/-- Witness for C9: on the seeded items, adding the fresh name "Item C" is
rejected with 409 and the state survives untouched, while adding the
duplicate name "Item A" is accepted with 201 and appended. -/
theorem add_item_guard_inverted_witness :
    TodoApi.add_item TodoApi.items0 3 (some ⟨some "Item C", some "x"⟩) =
      (409, TodoApi.items0, 3) ∧
    TodoApi.add_item TodoApi.items0 3 (some ⟨some "Item A", some "x"⟩) =
      (201, TodoApi.items0 ++ [⟨3, "Item A", "x"⟩], 4) := by
  have h1 := add_item_guard_inverted TodoApi.items0 3 "Item C" "x" (by decide) (by decide)
  have h2 := add_item_guard_inverted TodoApi.items0 3 "Item A" "x" (by decide) (by decide)
  exact ⟨h1.1 (by decide), (h2.2 (by decide)).2⟩
